import Mathlib

/-!
Verification of the ShellSpawn POSIX core (`linuxshell.c`) against its
natural-language specification.  The C functions relevant to the claims are
shallowly embedded as executable Lean definitions over byte lists
(`List Nat`, one `Nat` per byte), and the claims are settled as theorems
about those definitions.
-/

namespace ShellSpawn

/-! ## Status codes (shellspawn.h, lines 114-119) -/

def SHELLSPAWN_OK : Nat := 0
def SHELLSPAWN_TOOMANYIN : Nat := 1
def SHELLSPAWN_TOOMANYOUT : Nat := 2
def SHELLSPAWN_TOOMANYERR : Nat := 3
def SHELLSPAWN_NOFOUND : Nat := 4
def SHELLSPAWN_FAILURE : Nat := 5

/-- Bytes of a Lean string literal, used to write concrete C strings. -/
def strBytes (s : String) : List Nat := s.toList.map Char.toNat

/-! ## C-string view of a byte buffer

`appendTextOutput` (linuxshell.c:133-142) appends with `strcat`/`strcpy`,
so what is appended from a read buffer is the bytes up to the first NUL. -/

/-- The C-string content of a byte buffer: everything before the first NUL. -/
def cString (b : List Nat) : List Nat := b.takeWhile (· ≠ 0)

/-! ## HandleOutputToString (linuxshell.c:1057-1075)

The worker repeatedly `read`s up to 256 bytes into `lpBuffer`, NUL-terminates
it at `nBytesRead` and appends it to `*sOut` with `appendTextOutput`.  We model
one run by the list of chunks the successive `read` calls return (the final
0-byte read appends the empty string, a no-op). -/

def handleOutputToString (chunks : List (List Nat)) : List Nat :=
  (chunks.map cString).flatten

/-! ## HandleOutputToVector (linuxshell.c:1017-1054)

Per chunk the loop scans bytes; at each `'\n'` it NUL-overwrites the newline,
appends the C-string of the segment since `start` to the carried `buffer`
(`appendTextOutput`, so NUL-truncating), pushes `buffer` onto the line array
and resets `buffer` to NULL; after the scan a leftover tail (`start <
nBytesRead`) is appended to `buffer`.  After EOF a non-NULL `buffer` is pushed
as the last line.  `vecLoop` walks one chunk byte by byte, `pending` being the
segment `lpBuffer+start .. i`; `buf` is the carried `buffer` (`none` = NULL,
note `appendTextOutput` to a NULL buffer produces a non-NULL, possibly empty,
string). -/

def vecLoop (acc : List (List Nat)) (buf : Option (List Nat))
    (pending : List Nat) : List Nat → List (List Nat) × Option (List Nat)
  | [] =>
      if pending = [] then (acc, buf)
      else (acc, some (buf.getD [] ++ cString pending))
  | b :: rest =>
      if b = 10 then
        vecLoop (acc ++ [buf.getD [] ++ cString pending]) none [] rest
      else
        vecLoop acc buf (pending ++ [b]) rest

def vecStep (st : List (List Nat) × Option (List Nat)) (chunk : List Nat) :
    List (List Nat) × Option (List Nat) :=
  vecLoop st.1 st.2 [] chunk

/-- Final state to line array: `if (buffer) appendTextArray(aOut, buffer)`. -/
def vecFinish (st : List (List Nat) × Option (List Nat)) : List (List Nat) :=
  match st.2 with
  | some b => st.1 ++ [b]
  | none => st.1

def handleOutputToVector (chunks : List (List Nat)) : List (List Nat) :=
  vecFinish (chunks.foldl vecStep ([], none))

/-! ## The Lines specification from the claim's words

"the collected line array equals B split on `'\n'` with each newline removed,
contains no empty trailing element exactly when B ends in `'\n'`". -/

/-- Split a byte list on the newline byte, removing each newline
(`split [] = [[]]`, as in the usual split). -/
def splitNL : List Nat → List (List Nat)
  | [] => [[]]
  | b :: rest =>
      if b = 10 then [] :: splitNL rest
      else
        match splitNL rest with
        | s :: ss => (b :: s) :: ss
        | [] => [[b]]

def endsInNL (B : List Nat) : Bool := B.getLast? = some 10

/-- The claim's line array: split on newline, dropping the empty trailing
element exactly when `B` ends in a newline. -/
def linesSpec (B : List Nat) : List (List Nat) :=
  if endsInNL B then (splitNL B).dropLast else splitNL B

/-! Proof infrastructure for chunking invariance: `lineAccum` is a newline
splitter with an explicit carried fragment; on NUL-free input it coincides
with `vecLoop`, and it composes over chunk concatenation. -/

def lineAccum (acc : List (List Nat)) (eff : Option (List Nat)) :
    List Nat → List (List Nat) × Option (List Nat)
  | [] => (acc, eff)
  | b :: rest =>
      if b = 10 then lineAccum (acc ++ [eff.getD []]) none rest
      else lineAccum acc (some (eff.getD [] ++ [b])) rest

/-- The "effective" carried fragment of a `(buffer, pending segment)` pair. -/
def optEff (buf : Option (List Nat)) (pending : List Nat) :
    Option (List Nat) :=
  match buf, pending with
  | none, [] => none
  | _, _ => some (buf.getD [] ++ pending)

/-- What `lineAccum` starting from carried fragment `e` contributes to the
line array, expressed through `splitNL`. -/
def withEff (e : Option (List Nat)) (B : List Nat) : List (List Nat) :=
  if B = [] then (match e with | some b => [b] | none => [])
  else if endsInNL B then
    ((splitNL B).modifyHead (fun s => e.getD [] ++ s)).dropLast
  else (splitNL B).modifyHead (fun s => e.getD [] ++ s)

/-! ## ParseCommand (linuxshell.c:1385-1523)

The parser copies the command string, skips leading spaces, takes the
program token up to the next space, skips spaces, then scans argument
tokens: a token starting with `'"'` or `'\''` extends to the matching quote
(or to the end of the string when unterminated) and carries the inner text;
any other token extends to the next space.  Spaces between tokens are
skipped.

Two slips in the source are modelled faithfully:
* the empty-command guard reads `if (!file[0])` — `file` is the `char **`
  out-parameter, so `file[0]` is the (never-NULL) pointer `*file`, not its
  first character; the guard is unreachable and an all-space command parses
  successfully with an empty program token;
* a quoted token's pointer is stored with `*argv[a] = ...`, i.e. through
  `*(argv + a)`, out of bounds of the single `char **` argv out-parameter
  for `a ≥ 1`, so the actual slot `(*argv)[a]` is never written (modelled as
  `none`); plain tokens use the correct `(*argv)[a] = ...`.
-/

/-- Skip the exact character the source skips between tokens: `' '`. -/
def skipSpaces (s : List Nat) : List Nat := s.dropWhile (· = 32)

inductive Tok where
  | quoted (content : List Nat)
  | plain (content : List Nat)
deriving DecidableEq, Repr

/-- Token scan, fuel-indexed to keep the recursion structural (each step
consumes at least the token's first byte, so `fuel = s.length` always
suffices and the fuel-exhausted case is unreachable). -/
def scanToksGo : Nat → List Nat → List Tok
  | _, [] => []
  | 0, _ :: _ => []
  | fuel + 1, c :: rest =>
      if c = 34 ∨ c = 39 then
        -- case '"' / case '\'': token = inner text up to the matching quote
        let content := rest.takeWhile (· ≠ c)
        Tok.quoted content ::
          scanToksGo fuel (skipSpaces (rest.drop (content.length + 1)))
      else
        -- default: token extends to the next space (scanned from l+1)
        let content := rest.takeWhile (· ≠ 32)
        Tok.plain (c :: content) ::
          scanToksGo fuel (skipSpaces (rest.drop (content.length + 1)))

def scanToks (s : List Nat) : List Tok := scanToksGo s.length s

/-- `strrchr(*file, '/')` then `++`: the text after the last `'/'`, or the
whole token when it has none. -/
def basenameOf (t : List Nat) : List Nat :=
  if t.contains 47 then (t.reverse.takeWhile (· ≠ 47)).reverse else t

/-- The argv slot a token ends up in: plain tokens are stored via
`(*argv)[a]`; quoted tokens are stored through the out-of-bounds `*argv[a]`
and the real slot stays unwritten. -/
def tokSlot : Tok → Option (List Nat)
  | .quoted _ => none
  | .plain s => some s

structure Parsed where
  progTok : List Nat
  argv0 : List Nat
  argvTail : List (Option (List Nat))
deriving DecidableEq, Repr

def parseCommand (cmd : List Nat) : Parsed :=
  let afterLead := skipSpaces cmd
  let progTok := afterLead.takeWhile (· ≠ 32)
  -- `if (!file[0])` is unreachable (see section comment): no error case
  let afterProg := skipSpaces (afterLead.drop progTok.length)
  { progTok := progTok
    argv0 := basenameOf progTok
    argvTail := (scanToks afterProg).map tokSlot }

/-! ## Command resolution (linuxshell.c:412-442, ExeFound:1757-1768)

`ExeFound` consults the filesystem (stat, euid/egid), so it is abstracted as
a boolean predicate `exeP` over candidate paths.  The PATH scan is the
source's loop, fuel-indexed because it does not terminate on all inputs:
the inner copy loop leaves `env` ON the `':'` that ended a component, so the
outer `while (env && *env != ':')` exits after the first component; and when
the first component is not followed by a `':'`, `env` rests on the
terminating NUL and every later iteration retries `"/" + base` forever. -/

inductive SearchOutcome where
  | found (p : List Nat)
  | notFound
  | outOfFuel
deriving DecidableEq, Repr

def pathSearchLoop (exeP : List Nat → Bool) (base : List Nat) :
    Nat → List Nat → SearchOutcome
  | 0, _ => .outOfFuel
  | fuel + 1, env =>
      if env.head? = some 58 then .notFound   -- while (env && *env != ':') fails
      else
        let comp := env.takeWhile (· ≠ 58)    -- copy loop; env left on ':' or NUL
        let candidate := comp ++ 47 :: base   -- strcat "/", strcat base_name
        if exeP candidate then .found candidate
        else pathSearchLoop exeP base fuel (env.drop comp.length)

def resolveCommand (exeP : List Nat → Bool) (pathVar : Option (List Nat))
    (base : List Nat) (fuel : Nat) : SearchOutcome :=
  if exeP base then .found base
  else if base.head? ≠ some 47 then
    match pathVar with
    | some env => pathSearchLoop exeP base fuel env
    | none => .notFound                       -- missing PATH: while never runs
  else .notFound

/-! ## Wait-status decoding (glibc macros used by linuxshell.c)

`WEXITSTATUS(s) = (s & 0xff00) >> 8`, `WTERMSIG(s) = s & 0x7f`,
`WIFEXITED(s) = WTERMSIG(s) == 0`,
`WIFSIGNALED(s) = ((signed char)(((s & 0x7f) + 1) >> 1)) > 0`. -/

def signedChar (n : Nat) : Int :=
  if n % 256 < 128 then ((n % 256 : Nat) : Int)
  else ((n % 256 : Nat) : Int) - 256

def wtermsig (s : Nat) : Nat := s % 128

def wifexited (s : Nat) : Bool := wtermsig s == 0

def wifsignaled (s : Nat) : Bool := decide (0 < (signedChar (wtermsig s + 1)).fdiv 2)

def wexitstatus (s : Nat) : Nat := s / 256 % 256

/-- The wait status a child produces by calling `exit(c)`: low byte of `c`
shifted into the high byte. -/
def mkExitStatus (c : Nat) : Nat := 256 * (c % 256)

/-- The wait status of a child terminated by signal `sig` (`1 ≤ sig ≤ 126`
covers every real signal number), with optional core-dump flag 0x80. -/
def mkSignaledStatus (sig : Nat) (core : Bool) : Nat :=
  sig + (if core then 128 else 0)

/-- `WaitForProcess` (linuxshell.c:885-948): `waitpid` in a do-while that
skips statuses until `WIFEXITED || WIFSIGNALED`; modelled over the list of
statuses successive `waitpid` calls deliver (`none` = the loop never sees a
terminal status, i.e. it blocks forever). -/
def waitLoop : List Nat → Option Nat
  | [] => none
  | s :: rest => if wifexited s || wifsignaled s then some s else waitLoop rest

/-! ## shellspawn (linuxshell.c:162-759), control-flow model

The stages in source order: the three binding validations (lines 234-248),
clearing of the output holders (250-266), condvar/mutex allocation (269-308,
assumed to succeed), pipe/PTY provisioning (310-400), `ParseCommand` (406,
whose error path is unreachable apart from malloc failure), command
resolution (412-442), fork of the child or of the PTY proxy (444-591),
worker-thread creation (614-659), the wait (661-695) and finally
`*rc = data.ChildProcessRC; return SHELLSPAWN_OK` (756-758).  Worker I/O
errors (which would surface as SHELLSPAWN_FAILURE) are not modelled: the
claims concern runs whose I/O succeeds.  `rcSet = none` models that the
caller's `*rc` was never written. -/

inductive Res where
  | pipeRes
  | ptyRes
  | forkRes
  | threadRes
deriving DecidableEq, Repr

structure SpawnIn (α : Type) where
  aIn : Bool
  sIn : Bool
  fIn : Bool
  pIn : Bool
  aOut : Bool
  sOut : Bool
  fOut : Bool
  pOut : Bool
  aErr : Bool
  sErr : Bool
  fErr : Bool
  pErr : Bool
  aOutVal : Option α
  sOutVal : Option α
  aErrVal : Option α
  sErrVal : Option α
deriving DecidableEq, Repr

/-- `(x ? 1 : 0) + (y ? 1 : 0) + (z ? 1 : 0) + (w ? 1 : 0)`. -/
def bcount (a b c d : Bool) : Nat := a.toNat + b.toNat + c.toNat + d.toNat

inductive SpawnResult (α : Type) where
  | ret (status : Nat) (rcSet : Option Nat)
      (aOutVal sOutVal aErrVal sErrVal : Option α)
      (resources : List Res)
  | hangs (resources : List Res)
deriving DecidableEq, Repr

def statusOf {α : Type} : SpawnResult α → Option Nat
  | .ret st _ _ _ _ _ _ => some st
  | .hangs _ => none

def rcOf {α : Type} : SpawnResult α → Option Nat
  | .ret _ rc _ _ _ _ _ => rc
  | .hangs _ => none

def resourcesOf {α : Type} : SpawnResult α → List Res
  | .ret _ _ _ _ _ _ rs => rs
  | .hangs rs => rs

def holdersOf {α : Type} :
    SpawnResult α → Option (Option α × Option α × Option α × Option α)
  | .ret _ _ a s a2 s2 _ => some (a, s, a2, s2)
  | .hangs _ => none

def spawnModel {α : Type} (inp : SpawnIn α) (cmd : List Nat)
    (pathVar : Option (List Nat)) (exeP : List Nat → Bool)
    (fuel : Nat) (waitStatuses : List Nat) : SpawnResult α :=
  if bcount inp.aIn inp.sIn inp.fIn inp.pIn > 1 then
    .ret SHELLSPAWN_TOOMANYIN none inp.aOutVal inp.sOutVal inp.aErrVal inp.sErrVal []
  else if bcount inp.aOut inp.sOut inp.fOut inp.pOut > 1 then
    .ret SHELLSPAWN_TOOMANYOUT none inp.aOutVal inp.sOutVal inp.aErrVal inp.sErrVal []
  else if bcount inp.aErr inp.sErr inp.fErr inp.pErr > 1 then
    .ret SHELLSPAWN_TOOMANYERR none inp.aOutVal inp.sOutVal inp.aErrVal inp.sErrVal []
  else
    -- lines 250-266: clear any previously populated output holders
    let aOutV : Option α := if inp.aOut then none else inp.aOutVal
    let sOutV : Option α := if inp.sOut then none else inp.sOutVal
    let aErrV : Option α := if inp.aErr then none else inp.aErrVal
    let sErrV : Option α := if inp.sErr then none else inp.sErrVal
    -- lines 310-400: pipes / PTY + the two proxy rendezvous pipes
    let res0 : List Res :=
      (if inp.pOut then [] else [.pipeRes]) ++
      (if inp.pErr then [] else [.pipeRes]) ++
      (if inp.pIn then []
       else if inp.fIn then [.ptyRes, .pipeRes, .pipeRes] else [.pipeRes])
    let parsed := parseCommand cmd
    match resolveCommand exeP pathVar parsed.progTok fuel with
    | .outOfFuel => .hangs res0
    | .notFound =>
        .ret SHELLSPAWN_NOFOUND none aOutV sOutV aErrV sErrV res0
    | .found _ =>
        let res1 := res0 ++
          (if inp.fIn then [Res.forkRes, Res.forkRes] else [Res.forkRes])
        let res2 := res1 ++
          (if inp.pOut then [] else [Res.threadRes]) ++
          (if inp.pErr then [] else [Res.threadRes]) ++
          (if inp.pIn then [] else [Res.threadRes]) ++
          (if inp.fIn || inp.fOut || inp.fErr then [Res.threadRes] else [])
        match waitLoop waitStatuses with
        | none => .hangs res2
        | some st =>
            .ret SHELLSPAWN_OK (some (wexitstatus st)) aOutV sOutV aErrV sErrV res2

/-- The all-Discard invocation: no bindings, empty holders. -/
def allDiscard : SpawnIn Nat :=
  ⟨false, false, false, false, false, false, false, false,
   false, false, false, false, none, none, none, none⟩

/-- Both an input array and an input string supplied. -/
def conflictIn : SpawnIn Nat :=
  ⟨true, true, false, false, false, false, false, false,
   false, false, false, false, some 1, some 2, some 3, some 4⟩

/-- Both an output array and an output callback supplied. -/
def conflictOut : SpawnIn Nat :=
  ⟨false, false, false, false, true, false, true, false,
   false, false, false, false, some 5, some 6, some 7, some 8⟩

/-- Both an error array and an error string supplied, with all four output
holders already populated. -/
def conflictErr : SpawnIn Nat :=
  ⟨false, false, false, false, false, false, false, false,
   true, true, false, false, some 11, some 12, some 13, some 14⟩

end ShellSpawn

namespace ShellSpawn

/-! ## Basic lemmas for the output workers -/

theorem cString_of_no_nul {b : List Nat} (h : 0 ∉ b) : cString b = b :=
  List.takeWhile_eq_self_iff.mpr (fun x hx => by
    simp only [ne_eq, decide_eq_true_eq]
    exact fun hx0 => h (hx0 ▸ hx))

theorem handleOutputToString_no_nul (chunks : List (List Nat))
    (h : ∀ c ∈ chunks, (0 : Nat) ∉ c) :
    handleOutputToString chunks = chunks.flatten := by
  unfold handleOutputToString
  induction chunks with
  | nil => simp
  | cons c cs ih =>
      simp only [List.map_cons, List.flatten_cons, List.mem_cons] at *
      rw [cString_of_no_nul (h c (Or.inl rfl)), ih (fun d hd => h d (Or.inr hd))]

theorem optEff_nil (buf : Option (List Nat)) : optEff buf [] = buf := by
  cases buf <;> simp [optEff]

theorem optEff_getD (buf : Option (List Nat)) (pending : List Nat) :
    (optEff buf pending).getD [] = buf.getD [] ++ pending := by
  cases buf <;> cases pending <;> simp [optEff]

theorem optEff_push (buf : Option (List Nat)) (pending : List Nat) (b : Nat) :
    optEff buf (pending ++ [b]) = some (buf.getD [] ++ pending ++ [b]) := by
  cases buf <;> cases pending <;> simp [optEff]

theorem vecLoop_eq_lineAccum (c : List Nat) :
    ∀ (acc : List (List Nat)) (buf : Option (List Nat)) (pending : List Nat),
      0 ∉ c → 0 ∉ pending →
      vecLoop acc buf pending c = lineAccum acc (optEff buf pending) c := by
  induction c with
  | nil =>
      intro acc buf pending _ hp
      by_cases h : pending = []
      · subst h; simp [vecLoop, lineAccum, optEff_nil]
      · simp only [vecLoop, lineAccum, if_neg h]
        rw [cString_of_no_nul hp]
        cases buf <;> cases pending <;> simp_all [optEff]
  | cons b rest ih =>
      intro acc buf pending hc hp
      have hb : b ≠ 0 := fun h => hc (h ▸ List.mem_cons_self b rest)
      have hrest : 0 ∉ rest := fun h => hc (List.mem_cons_of_mem b h)
      have hpb : 0 ∉ pending ++ [b] := by
        intro hmem
        rcases List.mem_append.mp hmem with h | h
        · exact hp h
        · simp at h; exact hb h.symm
      by_cases h10 : b = 10
      · simp only [vecLoop, lineAccum, if_pos h10]
        rw [ih _ none [] hrest (by simp), cString_of_no_nul hp,
          optEff_nil, optEff_getD]
      · simp only [vecLoop, lineAccum, if_neg h10]
        rw [ih _ buf (pending ++ [b]) hrest hpb, optEff_push, optEff_getD]

theorem lineAccum_append (c₁ : List Nat) :
    ∀ (c₂ : List Nat) (acc : List (List Nat)) (eff : Option (List Nat)),
      lineAccum acc eff (c₁ ++ c₂) =
        lineAccum (lineAccum acc eff c₁).1 (lineAccum acc eff c₁).2 c₂ := by
  induction c₁ with
  | nil => intro c₂ acc eff; simp [lineAccum]
  | cons b rest ih =>
      intro c₂ acc eff
      by_cases h10 : b = 10
      · simp only [List.cons_append, lineAccum, if_pos h10]
        exact ih c₂ _ _
      · simp only [List.cons_append, lineAccum, if_neg h10]
        exact ih c₂ _ _

theorem foldl_vecStep_eq (chunks : List (List Nat)) :
    ∀ (st : List (List Nat) × Option (List Nat)),
      (∀ c ∈ chunks, (0 : Nat) ∉ c) →
      chunks.foldl vecStep st = lineAccum st.1 st.2 chunks.flatten := by
  induction chunks with
  | nil => intro st _; simp [lineAccum]
  | cons c cs ih =>
      intro st h
      have hc : 0 ∉ c := h c (List.mem_cons_self c cs)
      have hcs : ∀ d ∈ cs, (0 : Nat) ∉ d := fun d hd => h d (List.mem_cons_of_mem c hd)
      have hstep : vecStep st c = lineAccum st.1 st.2 c := by
        unfold vecStep
        rw [vecLoop_eq_lineAccum c st.1 st.2 [] hc (by simp), optEff_nil]
      simp only [List.foldl_cons, List.flatten_cons]
      rw [ih _ hcs, hstep, lineAccum_append]

/-! ## splitNL / withEff lemmas -/

theorem splitNL_ne_nil (B : List Nat) : splitNL B ≠ [] := by
  cases B with
  | nil => simp [splitNL]
  | cons b rest =>
      by_cases h : b = 10
      · simp [splitNL, h]
      · simp only [splitNL, if_neg h]
        cases hs : splitNL rest <;> simp

theorem endsInNL_cons (b : Nat) {rest : List Nat} (h : rest ≠ []) :
    endsInNL (b :: rest) = endsInNL rest := by
  obtain ⟨r, rs, rfl⟩ := List.exists_cons_of_ne_nil h
  simp [endsInNL, List.getLast?_cons_cons]

theorem dropLast_cons_ne_nil {α : Type} (a : α) {l : List α} (h : l ≠ []) :
    (a :: l).dropLast = a :: l.dropLast := by
  obtain ⟨x, xs, rfl⟩ := List.exists_cons_of_ne_nil h
  simp [List.dropLast]

theorem modifyHead_nil_append (l : List (List Nat)) :
    l.modifyHead (fun s => [] ++ s) = l := by
  cases l <;> simp

theorem splitNL_cons_nl (rest : List Nat) :
    splitNL (10 :: rest) = [] :: splitNL rest := by
  simp [splitNL]

theorem splitNL_cons_other {b : Nat} (hb : b ≠ 10) (rest : List Nat) :
    splitNL (b :: rest) =
      match splitNL rest with
      | s :: ss => (b :: s) :: ss
      | [] => [[b]] := by
  simp [splitNL, hb]

theorem lineAccum_cons_nl (acc : List (List Nat)) (eff : Option (List Nat))
    (rest : List Nat) :
    lineAccum acc eff (10 :: rest) =
      lineAccum (acc ++ [eff.getD []]) none rest := by
  simp [lineAccum]

theorem lineAccum_cons_other (acc : List (List Nat)) (eff : Option (List Nat))
    {b : Nat} (rest : List Nat) (hb : b ≠ 10) :
    lineAccum acc eff (b :: rest) =
      lineAccum acc (some (eff.getD [] ++ [b])) rest := by
  simp [lineAccum, hb]

theorem withEff_cons_nl (e : Option (List Nat)) (rest : List Nat) :
    withEff e (10 :: rest) = e.getD [] :: withEff none rest := by
  by_cases h : rest = []
  · subst h
    simp [withEff, splitNL, endsInNL]
  · have hne : (10 :: rest : List Nat) ≠ [] := by simp
    obtain ⟨s, ss, hsplit⟩ := List.exists_cons_of_ne_nil (splitNL_ne_nil rest)
    unfold withEff
    rw [if_neg hne, if_neg h, endsInNL_cons 10 h, splitNL_cons_nl, hsplit]
    simp only [List.modifyHead, Option.getD_none, List.nil_append,
      List.append_nil]
    by_cases hend : endsInNL rest
    · simp only [hend, if_true]
      exact dropLast_cons_ne_nil _ (by simp)
    · simp [hend]

theorem withEff_cons_other (e : Option (List Nat)) (b : Nat) (rest : List Nat)
    (hb : b ≠ 10) :
    withEff e (b :: rest) = withEff (some (e.getD [] ++ [b])) rest := by
  by_cases h : rest = []
  · subst h
    simp [withEff, splitNL, endsInNL, hb]
  · obtain ⟨s, ss, hsplit⟩ := List.exists_cons_of_ne_nil (splitNL_ne_nil rest)
    have hne : (b :: rest : List Nat) ≠ [] := by simp
    have hsplitb : splitNL (b :: rest) = (b :: s) :: ss := by
      rw [splitNL_cons_other hb, hsplit]
    unfold withEff
    rw [if_neg hne, if_neg h, endsInNL_cons b h, hsplitb, hsplit]
    simp only [List.modifyHead, Option.getD_some]
    have hcat : e.getD [] ++ b :: s = (e.getD [] ++ [b]) ++ s := by
      simp
    rw [hcat]

theorem vecFinish_lineAccum (B : List Nat) :
    ∀ (acc : List (List Nat)) (e : Option (List Nat)),
      vecFinish (lineAccum acc e B) = acc ++ withEff e B := by
  induction B with
  | nil =>
      intro acc e
      cases e <;> simp [lineAccum, vecFinish, withEff]
  | cons b rest ih =>
      intro acc e
      by_cases h10 : b = 10
      · subst h10
        rw [lineAccum_cons_nl, ih, withEff_cons_nl]
        simp
      · rw [lineAccum_cons_other acc e rest h10, ih,
          withEff_cons_other e b rest h10]

/-! ## Claims C3 and C4 -/

/-- C4 counterexample: the claim fails as stated.  With `B = [0]` (a single
NUL byte, delivered in one read) the source's C-string accumulation truncates
at the NUL and the collected array is `[[]]`, not `[[0]]`; and with `B = []`
the collected array is `[]` while splitting the empty sequence gives `[[]]`. -/
theorem claim_C4_counterexample :
    (handleOutputToVector [[0]] ≠ linesSpec [0] ∧ List.flatten [[0]] = [0]) ∧
    (handleOutputToVector [] ≠ linesSpec [] ∧
      List.flatten ([] : List (List Nat)) = []) := by
  decide

/-- C4 (amended): for every nonempty byte sequence `B` that contains no NUL
byte, a Lines binding collects exactly `B` split on `'\n'` with each newline
removed, with no empty trailing element exactly when `B` ends in `'\n'` and
with a final unterminated fragment still appended, regardless of how the
reads chunk `B`. -/
theorem claim_C4 (B : List Nat) (chunks : List (List Nat))
    (hj : chunks.flatten = B) (hnul : (0 : Nat) ∉ B) (hne : B ≠ []) :
    handleOutputToVector chunks = linesSpec B := by
  subst hj
  have hch : ∀ c ∈ chunks, (0 : Nat) ∉ c := fun c hc hb =>
    hnul (List.mem_flatten.mpr ⟨c, hc, hb⟩)
  unfold handleOutputToVector
  rw [foldl_vecStep_eq chunks ([], none) hch, vecFinish_lineAccum]
  simp only [List.nil_append]
  unfold withEff linesSpec
  rw [if_neg hne]
  simp only [Option.getD_none, modifyHead_nil_append]

theorem claim_C4_witness :
    handleOutputToVector [strBytes "ab", strBytes "c\nd\n\nef"] =
      linesSpec (strBytes "abc\nd\n\nef") :=
  claim_C4 (strBytes "abc\nd\n\nef") [strBytes "ab", strBytes "c\nd\n\nef"]
    (by decide) (by decide) (by decide)

/-- C3 counterexample: the claim fails as stated.  With `B = [0, 65]`
(a NUL byte then `'A'`, delivered in one read) the `strcat`-based
accumulation of `HandleOutputToString` stops at the NUL and collects `[]`,
not `B`. -/
theorem claim_C3_counterexample :
    handleOutputToString [[0, 65]] ≠ [0, 65] ∧
      List.flatten [[0, 65]] = [0, 65] := by
  decide

/-- C3 (amended): for every byte sequence `B` that contains no NUL byte
(0x00), a Buffer binding collects exactly `B`, byte-for-byte, regardless of
how the reads chunk `B`; with a NUL present, the bytes of a chunk from its
first NUL onward are dropped. -/
theorem claim_C3 (B : List Nat) (chunks : List (List Nat))
    (hj : chunks.flatten = B) (hnul : (0 : Nat) ∉ B) :
    handleOutputToString chunks = B := by
  subst hj
  exact handleOutputToString_no_nul chunks (fun c hc hb =>
    hnul (List.mem_flatten.mpr ⟨c, hc, hb⟩))

theorem claim_C3_witness :
    handleOutputToString [strBytes "hel", strBytes "lo\n"] = strBytes "hello\n" :=
  claim_C3 (strBytes "hello\n") [strBytes "hel", strBytes "lo\n"]
    (by decide) (by decide)

/-! ## Wait-status arithmetic -/

theorem wexitstatus_mkExitStatus (c : Nat) (hc : c ≤ 255) :
    wexitstatus (mkExitStatus c) = c := by
  unfold wexitstatus mkExitStatus
  omega

theorem wifexited_mkExitStatus (c : Nat) :
    wifexited (mkExitStatus c) = true := by
  unfold wifexited wtermsig mkExitStatus
  simp
  omega

theorem wtermsig_mkSignaledStatus (sig : Nat) (core : Bool) (h2 : sig ≤ 126) :
    wtermsig (mkSignaledStatus sig core) = sig := by
  unfold wtermsig mkSignaledStatus
  cases core <;> simp <;> omega

theorem wifexited_mkSignaledStatus (sig : Nat) (core : Bool)
    (h1 : 1 ≤ sig) (h2 : sig ≤ 126) :
    wifexited (mkSignaledStatus sig core) = false := by
  unfold wifexited
  rw [wtermsig_mkSignaledStatus sig core h2]
  simp
  omega

theorem wifsignaled_mkSignaledStatus (sig : Nat) (core : Bool)
    (h1 : 1 ≤ sig) (h2 : sig ≤ 126) :
    wifsignaled (mkSignaledStatus sig core) = true := by
  unfold wifsignaled
  rw [wtermsig_mkSignaledStatus sig core h2, decide_eq_true_eq]
  unfold signedChar
  have hlt : (sig + 1) % 256 = sig + 1 := Nat.mod_eq_of_lt (by omega)
  rw [hlt, if_pos (by omega : sig + 1 < 128)]
  have hfd : ((sig + 1 : Nat) : Int).fdiv 2 = (((sig + 1) / 2 : Nat) : Int) := rfl
  rw [hfd]
  have hd : 0 < (sig + 1) / 2 := by omega
  exact_mod_cast hd

theorem wexitstatus_mkSignaledStatus (sig : Nat) (core : Bool)
    (h2 : sig ≤ 126) :
    wexitstatus (mkSignaledStatus sig core) = 0 := by
  unfold wexitstatus mkSignaledStatus
  cases core <;> simp <;> omega

/-! ## Claims C1, C2, C9, C10 (shellspawn control flow) -/

/-- C1: for every child that exits normally with code `c ∈ 0..255` (wait
status `256*c`), a validly bound, resolvable invocation returns status
SHELLSPAWN_OK and stores `c` in `*rc`; in particular a non-zero child exit
code never by itself produces a non-OK status. -/
theorem claim_C1 {α : Type} (inp : SpawnIn α) (cmd : List Nat)
    (pathVar : Option (List Nat)) (exeP : List Nat → Bool) (fuel : Nat)
    (ws : List Nat) (c : Nat) (p : List Nat)
    (hin : bcount inp.aIn inp.sIn inp.fIn inp.pIn ≤ 1)
    (hout : bcount inp.aOut inp.sOut inp.fOut inp.pOut ≤ 1)
    (herr : bcount inp.aErr inp.sErr inp.fErr inp.pErr ≤ 1)
    (hres : resolveCommand exeP pathVar (parseCommand cmd).progTok fuel =
      .found p)
    (hc : c ≤ 255)
    (hw : waitLoop ws = some (mkExitStatus c)) :
    statusOf (spawnModel inp cmd pathVar exeP fuel ws) = some SHELLSPAWN_OK ∧
    rcOf (spawnModel inp cmd pathVar exeP fuel ws) = some c := by
  unfold spawnModel
  rw [if_neg (by omega : ¬bcount inp.aIn inp.sIn inp.fIn inp.pIn > 1),
    if_neg (by omega : ¬bcount inp.aOut inp.sOut inp.fOut inp.pOut > 1),
    if_neg (by omega : ¬bcount inp.aErr inp.sErr inp.fErr inp.pErr > 1)]
  simp only [hres, hw, statusOf, rcOf, wexitstatus_mkExitStatus c hc]
  exact ⟨trivial, trivial⟩

theorem claim_C1_witness :
    statusOf (spawnModel allDiscard (strBytes "/usr/bin/false") none
      (fun _ => true) 0 [mkExitStatus 1]) = some SHELLSPAWN_OK ∧
    rcOf (spawnModel allDiscard (strBytes "/usr/bin/false") none
      (fun _ => true) 0 [mkExitStatus 1]) = some 1 :=
  claim_C1 allDiscard (strBytes "/usr/bin/false") none (fun _ => true) 0
    [mkExitStatus 1] 1 (strBytes "/usr/bin/false")
    (by decide) (by decide) (by decide) (by decide) (by decide) (by decide)

/-- C2: a conflicting binding on a stream makes shellspawn return the
matching TooMany code (streams are validated in the order in, out, err)
with no pipe, PTY, thread or process created and nothing else done. -/
theorem claim_C2 {α : Type} (inp : SpawnIn α) (cmd : List Nat)
    (pathVar : Option (List Nat)) (exeP : List Nat → Bool) (fuel : Nat)
    (ws : List Nat) :
    (bcount inp.aIn inp.sIn inp.fIn inp.pIn > 1 →
      spawnModel inp cmd pathVar exeP fuel ws =
        .ret SHELLSPAWN_TOOMANYIN none inp.aOutVal inp.sOutVal
          inp.aErrVal inp.sErrVal []) ∧
    (bcount inp.aIn inp.sIn inp.fIn inp.pIn ≤ 1 →
      bcount inp.aOut inp.sOut inp.fOut inp.pOut > 1 →
      spawnModel inp cmd pathVar exeP fuel ws =
        .ret SHELLSPAWN_TOOMANYOUT none inp.aOutVal inp.sOutVal
          inp.aErrVal inp.sErrVal []) ∧
    (bcount inp.aIn inp.sIn inp.fIn inp.pIn ≤ 1 →
      bcount inp.aOut inp.sOut inp.fOut inp.pOut ≤ 1 →
      bcount inp.aErr inp.sErr inp.fErr inp.pErr > 1 →
      spawnModel inp cmd pathVar exeP fuel ws =
        .ret SHELLSPAWN_TOOMANYERR none inp.aOutVal inp.sOutVal
          inp.aErrVal inp.sErrVal []) := by
  refine ⟨fun h1 => ?_, fun h1 h2 => ?_, fun h1 h2 h3 => ?_⟩
  · unfold spawnModel
    rw [if_pos h1]
  · unfold spawnModel
    rw [if_neg (by omega), if_pos h2]
  · unfold spawnModel
    rw [if_neg (by omega), if_neg (by omega), if_pos h3]

theorem claim_C2_witness :
    (spawnModel conflictIn (strBytes "x") none (fun _ => false) 0 [] =
      .ret SHELLSPAWN_TOOMANYIN none (some 1) (some 2) (some 3) (some 4) []) ∧
    (spawnModel conflictOut (strBytes "x") none (fun _ => false) 0 [] =
      .ret SHELLSPAWN_TOOMANYOUT none (some 5) (some 6) (some 7) (some 8) []) ∧
    (spawnModel conflictErr (strBytes "x") none (fun _ => false) 0 [] =
      .ret SHELLSPAWN_TOOMANYERR none (some 11) (some 12) (some 13)
        (some 14) []) :=
  ⟨(claim_C2 conflictIn (strBytes "x") none (fun _ => false) 0 []).1
      (by decide),
   (claim_C2 conflictOut (strBytes "x") none (fun _ => false) 0 []).2.1
      (by decide) (by decide),
   (claim_C2 conflictErr (strBytes "x") none (fun _ => false) 0 []).2.2
      (by decide) (by decide) (by decide)⟩

/-- C9: when the command cannot be resolved, shellspawn returns status
SHELLSPAWN_NOFOUND and the caller's `*rc` out-parameter is never written. -/
theorem claim_C9 {α : Type} (inp : SpawnIn α) (cmd : List Nat)
    (pathVar : Option (List Nat)) (exeP : List Nat → Bool) (fuel : Nat)
    (ws : List Nat)
    (hin : bcount inp.aIn inp.sIn inp.fIn inp.pIn ≤ 1)
    (hout : bcount inp.aOut inp.sOut inp.fOut inp.pOut ≤ 1)
    (herr : bcount inp.aErr inp.sErr inp.fErr inp.pErr ≤ 1)
    (hres : resolveCommand exeP pathVar (parseCommand cmd).progTok fuel =
      .notFound) :
    statusOf (spawnModel inp cmd pathVar exeP fuel ws) =
      some SHELLSPAWN_NOFOUND ∧
    rcOf (spawnModel inp cmd pathVar exeP fuel ws) = none := by
  unfold spawnModel
  rw [if_neg (by omega : ¬bcount inp.aIn inp.sIn inp.fIn inp.pIn > 1),
    if_neg (by omega : ¬bcount inp.aOut inp.sOut inp.fOut inp.pOut > 1),
    if_neg (by omega : ¬bcount inp.aErr inp.sErr inp.fErr inp.pErr > 1)]
  simp only [hres, statusOf, rcOf]
  exact ⟨trivial, trivial⟩

theorem claim_C9_witness :
    statusOf (spawnModel allDiscard (strBytes "no_such_program_xyz") none
      (fun _ => false) 0 []) = some SHELLSPAWN_NOFOUND ∧
    rcOf (spawnModel allDiscard (strBytes "no_such_program_xyz") none
      (fun _ => false) 0 []) = none :=
  claim_C9 allDiscard (strBytes "no_such_program_xyz") none (fun _ => false)
    0 [] (by decide) (by decide) (by decide) (by decide)

/-- C10: on a binding-conflict return every caller-supplied output holder is
left exactly as passed in; clearing happens only after all three per-stream
validations have passed. -/
theorem claim_C10 {α : Type} (inp : SpawnIn α) (cmd : List Nat)
    (pathVar : Option (List Nat)) (exeP : List Nat → Bool) (fuel : Nat)
    (ws : List Nat)
    (hconf : bcount inp.aIn inp.sIn inp.fIn inp.pIn > 1 ∨
      bcount inp.aOut inp.sOut inp.fOut inp.pOut > 1 ∨
      bcount inp.aErr inp.sErr inp.fErr inp.pErr > 1) :
    holdersOf (spawnModel inp cmd pathVar exeP fuel ws) =
      some (inp.aOutVal, inp.sOutVal, inp.aErrVal, inp.sErrVal) := by
  unfold spawnModel
  by_cases h1 : bcount inp.aIn inp.sIn inp.fIn inp.pIn > 1
  · rw [if_pos h1]; rfl
  · rw [if_neg h1]
    by_cases h2 : bcount inp.aOut inp.sOut inp.fOut inp.pOut > 1
    · rw [if_pos h2]; rfl
    · rw [if_neg h2]
      have h3 : bcount inp.aErr inp.sErr inp.fErr inp.pErr > 1 := by
        rcases hconf with h | h | h
        · exact absurd h h1
        · exact absurd h h2
        · exact h
      rw [if_pos h3]; rfl

theorem claim_C10_witness :
    holdersOf (spawnModel conflictErr (strBytes "x") none (fun _ => false)
      0 []) = some (some 11, some 12, some 13, some 14) :=
  claim_C10 conflictErr (strBytes "x") none (fun _ => false) 0 []
    (Or.inr (Or.inr (by decide)))

/-! ## Claims C5, C6, C7 (resolver and parser bugs) -/

/-- C5: evaluation at the failing input.  With `PATH =
"/usr/local/bin:/usr/bin"`, program name `ls`, and an executability
predicate satisfied exactly by `/usr/bin/ls` (a candidate built from the
second PATH component), the source's search returns NotFound: the scan
leaves `env` on the `':'` ending the first component, so the
`while (env && *env != ':')` loop exits before the second component is ever
tried. -/
theorem claim_C5 :
    resolveCommand (fun p => p == strBytes "/usr/bin/ls")
      (some (strBytes "/usr/local/bin:/usr/bin")) (strBytes "ls") 9 =
      .notFound ∧
    strBytes "/usr/local/bin" ++ 47 :: strBytes "ls" ≠ strBytes "/usr/bin/ls" ∧
    (fun p => p == strBytes "/usr/bin/ls")
      (strBytes "/usr/bin" ++ 47 :: strBytes "ls") = true := by
  decide

/-- C6: evaluation at the failing input `/bin/echo 'a b'`.  The program
token and `argv[0]` (basename) are correct, but the quoted token's pointer
is stored through the out-of-bounds `*argv[a]`, so the real slot
`(*argv)[1]` is never written (`none`); the claim expects it to hold the
inner text `a b`. -/
theorem claim_C6 :
    parseCommand (strBytes "/bin/echo 'a b'") =
      { progTok := strBytes "/bin/echo", argv0 := strBytes "echo",
        argvTail := [none] } ∧
    (parseCommand (strBytes "/bin/echo 'a b'")).argvTail ≠
      [some (strBytes "a b")] := by
  decide

theorem pathSearchLoop_nil_env (fuel : Nat) :
    pathSearchLoop (fun _ => false) [] fuel [] = .outOfFuel := by
  induction fuel with
  | zero => rfl
  | succ n ih => simp only [pathSearchLoop]; simpa using ih

theorem pathSearchLoop_usrbin (fuel : Nat) :
    pathSearchLoop (fun _ => false) [] fuel (strBytes "/usr/bin") =
      .outOfFuel := by
  cases fuel with
  | zero => rfl
  | succ n =>
      have hstep : pathSearchLoop (fun _ => false) [] (n + 1)
          (strBytes "/usr/bin") =
          pathSearchLoop (fun _ => false) [] n [] := rfl
      rw [hstep, pathSearchLoop_nil_env]

/-- C7: evaluation at the failing input.  An all-space command parses
"successfully" with an empty program token, because the guard
`if (!file[0])` tests the never-NULL pointer `*file` instead of its first
character; the call then falls into the PATH scan, and with a colon-free
`PATH` (here `/usr/bin`) that scan retries `"/usr/bin/"` and then `"/"`
forever: the invocation never returns at all, let alone NotFound. -/
theorem claim_C7 :
    parseCommand (strBytes "   ") =
      { progTok := [], argv0 := [], argvTail := [] } ∧
    ∀ fuel ws,
      statusOf (spawnModel allDiscard (strBytes "   ")
        (some (strBytes "/usr/bin")) (fun _ => false) fuel ws) = none := by
  constructor
  · decide
  · intro fuel ws
    have hres : resolveCommand (fun _ => false) (some (strBytes "/usr/bin"))
        (parseCommand (strBytes "   ")).progTok fuel = .outOfFuel := by
      have h0 : resolveCommand (fun _ => false) (some (strBytes "/usr/bin"))
          (parseCommand (strBytes "   ")).progTok fuel =
          pathSearchLoop (fun _ => false) [] fuel (strBytes "/usr/bin") := rfl
      rw [h0]
      exact pathSearchLoop_usrbin fuel
    unfold spawnModel
    rw [if_neg (by decide :
        ¬bcount allDiscard.aIn allDiscard.sIn allDiscard.fIn allDiscard.pIn > 1),
      if_neg (by decide :
        ¬bcount allDiscard.aOut allDiscard.sOut allDiscard.fOut allDiscard.pOut > 1),
      if_neg (by decide :
        ¬bcount allDiscard.aErr allDiscard.sErr allDiscard.fErr allDiscard.pErr > 1)]
    simp only [hres, statusOf]

/-! ## Claim C8 (signaled termination) -/

/-- C8 fails as stated: for a child killed by a signal (wait status 9,
SIGKILL) the termination is signaled, yet the reported child exit code is
`WEXITSTATUS(9) = 0` — not a non-zero value, and not 128 + signal. -/
theorem claim_C8_counterexample :
    wifsignaled 9 = true ∧ wifexited 9 = false ∧
    statusOf (spawnModel allDiscard (strBytes "/bin/cat") none
      (fun _ => true) 0 [9]) = some SHELLSPAWN_OK ∧
    rcOf (spawnModel allDiscard (strBytes "/bin/cat") none
      (fun _ => true) 0 [9]) = some 0 := by
  decide

/-- C8 (amended): when the child terminates because of a signal rather than
a normal exit, the invocation still returns status OK and the reported
child exit code is 0: `WEXITSTATUS` extracts the high byte of the wait
status, which is zero in every signaled status. -/
theorem claim_C8 {α : Type} (inp : SpawnIn α) (cmd : List Nat)
    (pathVar : Option (List Nat)) (exeP : List Nat → Bool) (fuel : Nat)
    (sig : Nat) (core : Bool) (p : List Nat)
    (h1 : 1 ≤ sig) (h2 : sig ≤ 126)
    (hin : bcount inp.aIn inp.sIn inp.fIn inp.pIn ≤ 1)
    (hout : bcount inp.aOut inp.sOut inp.fOut inp.pOut ≤ 1)
    (herr : bcount inp.aErr inp.sErr inp.fErr inp.pErr ≤ 1)
    (hres : resolveCommand exeP pathVar (parseCommand cmd).progTok fuel =
      .found p) :
    statusOf (spawnModel inp cmd pathVar exeP fuel
      [mkSignaledStatus sig core]) = some SHELLSPAWN_OK ∧
    rcOf (spawnModel inp cmd pathVar exeP fuel
      [mkSignaledStatus sig core]) = some 0 := by
  have hw : waitLoop [mkSignaledStatus sig core] =
      some (mkSignaledStatus sig core) := by
    unfold waitLoop
    rw [wifexited_mkSignaledStatus sig core h1 h2,
      wifsignaled_mkSignaledStatus sig core h1 h2]
    rfl
  unfold spawnModel
  rw [if_neg (by omega : ¬bcount inp.aIn inp.sIn inp.fIn inp.pIn > 1),
    if_neg (by omega : ¬bcount inp.aOut inp.sOut inp.fOut inp.pOut > 1),
    if_neg (by omega : ¬bcount inp.aErr inp.sErr inp.fErr inp.pErr > 1)]
  simp only [hres, hw, statusOf, rcOf,
    wexitstatus_mkSignaledStatus sig core h2]
  exact ⟨trivial, trivial⟩

theorem claim_C8_witness :
    statusOf (spawnModel allDiscard (strBytes "/bin/cat") none
      (fun _ => true) 0 [mkSignaledStatus 15 false]) = some SHELLSPAWN_OK ∧
    rcOf (spawnModel allDiscard (strBytes "/bin/cat") none
      (fun _ => true) 0 [mkSignaledStatus 15 false]) = some 0 :=
  claim_C8 allDiscard (strBytes "/bin/cat") none (fun _ => true) 0 15 false
    (strBytes "/bin/cat") (by decide) (by decide) (by decide) (by decide)
    (by decide) (by decide)

end ShellSpawn
